import Mathlib

/-!
Verification of the terminal control and rendering substrate of
`asusctl-terminal-ui` (src/terminal.go, src/main.go), via a shallow
embedding in Lean 4.

The input stream is modelled as a `List Nat` of bytes; `bufio.Reader.ReadByte`
becomes `readByte`, which fails (returns `none`) exactly when no byte is
available — covering both the VTIME read timeout and a read error, which the
Go code treats identically.  Machine integers in the embedded code are small
and never overflow, so `Nat`/`Int` model them directly.
-/

namespace AsusTUI

/-- Key event tags, from `KeyType` in src/terminal.go. -/
inductive KeyType where
  | KeyChar
  | KeyEnter
  | KeyEscape
  | KeyBackspace
  | KeyTab
  | KeyUp
  | KeyDown
  | KeyLeft
  | KeyRight
  | KeyHome
  | KeyEnd
  | KeyPgUp
  | KeyPgDn
  | KeyDelete
  | KeyCtrlC
  | KeyCtrlQ
  | KeyCtrlS
  | KeyCtrlR
  deriving DecidableEq, Repr

/-- `KeyEvent` from src/terminal.go; `char` is the code point, with the Go
zero value `0` when the field is not set. -/
structure KeyEvent where
  type : KeyType
  char : Nat
  deriving DecidableEq, Repr

/-- One `reader.ReadByte()` call: `none` models an error or timeout
(no byte available), otherwise the byte and the rest of the stream. -/
def readByte : List Nat → Option (Nat × List Nat)
  | [] => none
  | b :: rest => (some (b, rest))

/-- Drop the result of a `reader.ReadByte()` whose return values the Go code
ignores (the `~` terminator consumed after `ESC [ 3/5/6`). -/
def discardByte : List Nat → List Nat
  | [] => []
  | _ :: rest => rest

/-- `ReadKey` from src/terminal.go, returning the decoded event together with
the bytes left unconsumed in the stream. -/
def readKey (input : List Nat) : KeyEvent × List Nat :=
  match readByte input with
  | none => (⟨KeyType.KeyChar, 0⟩, input)
  | some (b, r1) =>
    match b with
    | 0 => (⟨KeyType.KeyChar, 0⟩, r1)
    | 3 => (⟨KeyType.KeyCtrlC, 0⟩, r1)
    | 17 => (⟨KeyType.KeyCtrlQ, 0⟩, r1)
    | 18 => (⟨KeyType.KeyCtrlR, 0⟩, r1)
    | 19 => (⟨KeyType.KeyCtrlS, 0⟩, r1)
    | 9 => (⟨KeyType.KeyTab, 0⟩, r1)
    | 10 => (⟨KeyType.KeyEnter, 0⟩, r1)
    | 13 => (⟨KeyType.KeyEnter, 0⟩, r1)
    | 27 =>
      match readByte r1 with
      | none => (⟨KeyType.KeyEscape, 0⟩, r1)
      | some (b2, r2) =>
        if b2 = 91 then
          match readByte r2 with
          | none => (⟨KeyType.KeyEscape, 0⟩, r2)
          | some (b3, r3) =>
            if b3 = 65 then (⟨KeyType.KeyUp, 0⟩, r3)
            else if b3 = 66 then (⟨KeyType.KeyDown, 0⟩, r3)
            else if b3 = 67 then (⟨KeyType.KeyRight, 0⟩, r3)
            else if b3 = 68 then (⟨KeyType.KeyLeft, 0⟩, r3)
            else if b3 = 72 then (⟨KeyType.KeyHome, 0⟩, r3)
            else if b3 = 70 then (⟨KeyType.KeyEnd, 0⟩, r3)
            else if b3 = 51 then (⟨KeyType.KeyDelete, 0⟩, discardByte r3)
            else if b3 = 53 then (⟨KeyType.KeyPgUp, 0⟩, discardByte r3)
            else if b3 = 54 then (⟨KeyType.KeyPgDn, 0⟩, discardByte r3)
            else (⟨KeyType.KeyEscape, 0⟩, r3)
        else (⟨KeyType.KeyEscape, 0⟩, r2)
    | 127 => (⟨KeyType.KeyBackspace, 0⟩, r1)
    | b => (⟨KeyType.KeyChar, b⟩, r1)

/-- A draw call against the frame buffer, from the buffered-output methods of
`Terminal` in src/terminal.go. -/
inductive DrawOp where
  | moveTo (x y : Int)
  | setFg (r g b : Int)
  | setBg (r g b : Int)
  | resetStyle
  | bold
  | dim
  | underline
  | reverse
  | write (s : String)
  deriving DecidableEq, Repr

/-- The bytes a single draw call appends to `t.buf`
(`fmt.Fprintf`/`WriteString` in src/terminal.go). -/
def emit : DrawOp → String
  | DrawOp.moveTo x y => "\x1b[" ++ toString (y + 1) ++ ";" ++ toString (x + 1) ++ "H"
  | DrawOp.setFg r g b =>
      "\x1b[38;2;" ++ toString r ++ ";" ++ toString g ++ ";" ++ toString b ++ "m"
  | DrawOp.setBg r g b =>
      "\x1b[48;2;" ++ toString r ++ ";" ++ toString g ++ ";" ++ toString b ++ "m"
  | DrawOp.resetStyle => "\x1b[0m"
  | DrawOp.bold => "\x1b[1m"
  | DrawOp.dim => "\x1b[2m"
  | DrawOp.underline => "\x1b[4m"
  | DrawOp.reverse => "\x1b[7m"
  | DrawOp.write s => s

/-- One draw call: appends its bytes to the buffer. -/
def applyOp (buf : String) (op : DrawOp) : String := buf ++ emit op

/-- A sequence of draw calls applied in call order. -/
def applyOps (buf : String) (ops : List DrawOp) : String := ops.foldl applyOp buf

/-- `Clear` from src/terminal.go: `t.buf.Reset()`. -/
def clearBuf (_ : String) : String := ""

/-- `Flush` from src/terminal.go: the bytes written to stdout — hide cursor
and home (`\x1b[?25l\x1b[H`), the accumulated buffer, show cursor
(`\x1b[?25h`). -/
def flushOutput (buf : String) : String :=
  "\x1b[?25l\x1b[H" ++ buf ++ "\x1b[?25h"

/-- The concatenation, in call order, of the bytes each draw call appends. -/
def emitAll (ops : List DrawOp) : String :=
  ops.foldr (fun op acc => emit op ++ acc) ""

/-- `updateSize` from src/terminal.go: takes the column and row counts the
window-size ioctl reported (zeros when the query fails) and yields the
clamped width and height. -/
def updateSize (col row : Nat) : Nat × Nat :=
  (if col < 40 then 80 else col, if row < 10 then 24 else row)

/-- `pad` from src/terminal.go: pad or truncate a string to exactly `w`
runes (the code measures `[]rune` length). -/
def pad (s : String) (w : Nat) : String :=
  let runes := s.toList
  if runes.length ≥ w then
    if w > 3 then String.mk (runes.take (w - 1)) ++ "…"
    else String.mk (runes.take w)
  else s ++ String.mk (List.replicate (w - runes.length) ' ')

/-- The termios line-discipline settings `EnterRaw`/`ExitRaw` manipulate:
the four flag words and the control-character array. -/
structure Termios where
  iflag : Nat
  oflag : Nat
  cflag : Nat
  lflag : Nat
  cc : List Nat
  deriving DecidableEq, Repr

/-- Linux termios constants used by src/terminal.go. -/
def BRKINT : Nat := 2
def ICRNL : Nat := 256
def INPCK : Nat := 16
def ISTRIP : Nat := 32
def IXON : Nat := 1024
def OPOST : Nat := 1
def CS8 : Nat := 48
def ECHO : Nat := 8
def ICANON : Nat := 2
def IEXTEN : Nat := 32768
def ISIG : Nat := 1
def VMIN : Nat := 6
def VTIME : Nat := 5

/-- Go's `&^` (and-not): clear the bits of `mask` from `x`. -/
def andNot (x mask : Nat) : Nat := x ^^^ (x &&& mask)

/-- The raw settings `EnterRaw` computes from the saved original. -/
def mkRaw (orig : Termios) : Termios :=
  { iflag := andNot orig.iflag (BRKINT ||| ICRNL ||| INPCK ||| ISTRIP ||| IXON)
    oflag := andNot orig.oflag OPOST
    cflag := orig.cflag ||| CS8
    lflag := andNot orig.lflag (ECHO ||| ICANON ||| IEXTEN ||| ISIG)
    cc := (orig.cc.set VMIN 0).set VTIME 1 }

/-- The terminal-mode state `EnterRaw`/`ExitRaw` act on: the settings active
on the device, the `Terminal` struct's saved snapshot and raw flag, and the
escape directives written to stdout. -/
structure TermState where
  tty : Termios
  origTermios : Termios
  inRaw : Bool
  screen : String
  deriving DecidableEq, Repr

/-- `EnterRaw` from src/terminal.go, success path: snapshot the active
settings, apply the raw settings, switch to the alternate screen and hide
the cursor, mark raw. -/
def enterRaw (s : TermState) : TermState :=
  { tty := mkRaw s.tty
    origTermios := s.tty
    inRaw := true
    screen := s.screen ++ "\x1b[?1049h\x1b[?25l" }

/-- `ExitRaw` from src/terminal.go: no-op when not raw; otherwise show the
cursor, restore the main screen, reapply the saved settings, mark not raw. -/
def exitRaw (s : TermState) : TermState :=
  if s.inRaw then
    { tty := s.origTermios
      origTermios := s.origTermios
      inRaw := false
      screen := s.screen ++ "\x1b[?25h\x1b[?1049l" }
  else s

/-- An atomic action on the shared output stream: taking or releasing the
`Terminal.mu` mutex, or one `WriteString` to stdout. -/
inductive Act where
  | lock
  | unlock
  | out (s : String)
  deriving DecidableEq, Repr

/-- `Flush` from src/terminal.go as its sequence of atomic actions:
`t.mu.Lock()`, three `WriteString` calls (hide-and-home, the buffer, show),
`t.mu.Unlock()`. -/
def flushActs (buf : String) : List Act :=
  [Act.lock, Act.out "\x1b[?25l\x1b[H", Act.out buf,
   Act.out "\x1b[?25h", Act.unlock]

/-- `ExitRaw` (with `inRaw` set) as its sequence of atomic actions on the
output stream: a single `WriteString` of the restoration escapes — note it
takes no lock in src/terminal.go. -/
def exitRawActs : List Act := [Act.out "\x1b[?25h\x1b[?1049l"]

/-- A two-thread configuration: the main-loop thread (A, running `Flush`),
the signal-handler thread (B, running `ExitRaw`), who holds the mutex
(`none` = free, `some false` = A, `some true` = B), and the interleaved
write trace, each write tagged with its thread. -/
structure Conc where
  progA : List Act
  progB : List Act
  lockHeld : Option Bool
  trace : List (Bool × String)
  deriving DecidableEq, Repr

/-- Replace the remaining program of thread `t`. -/
def setProg (c : Conc) (t : Bool) (p : List Act) : Conc :=
  if t then { c with progB := p } else { c with progA := p }

/-- One scheduler step: run the next atomic action of thread `t`. A `lock`
blocks (no state change) while the mutex is held; an `out` appends to the
shared trace. -/
def step (c : Conc) (t : Bool) : Conc :=
  match (if t then c.progB else c.progA) with
  | [] => c
  | Act.lock :: rest =>
    match c.lockHeld with
    | none => { setProg c t rest with lockHeld := some t }
    | some _ => c
  | Act.unlock :: rest =>
    if c.lockHeld = some t then { setProg c t rest with lockHeld := none }
    else c
  | Act.out s :: rest => { setProg c t rest with trace := c.trace ++ [(t, s)] }

/-- Run a schedule (the list of thread choices) from a configuration. -/
def run (c : Conc) : List Bool → Conc
  | [] => c
  | t :: ts => run (step c t) ts

/-- Initial configuration: thread A about to `Flush` a frame buffer, thread B
about to run `ExitRaw`, mutex free, nothing written. -/
def initConc (buf : String) : Conc :=
  ⟨flushActs buf, exitRawActs, none, []⟩

/-- The synthetic idle event `KeyEvent{Type: KeyChar, Char: 0}`. -/
def idleEvent : KeyEvent := ⟨KeyType.KeyChar, 0⟩

/-- The event-loop test `key.Type == KeyChar && key.Char == 0`
from src/main.go that classifies an event as a timeout tick. -/
def isIdleTick (e : KeyEvent) : Bool :=
  e.type = KeyType.KeyChar && e.char = 0

/-- The save control chord: Ctrl-S by the convention the code's own comments
use (src/terminal.go labels byte 19 `// Ctrl-S`). -/
def saveChord : KeyEvent := ⟨KeyType.KeyCtrlS, 0⟩

/-- The refresh control chord: Ctrl-R by the convention the code's own
comments use (src/terminal.go labels byte 18 `// Ctrl-R`). -/
def refreshChord : KeyEvent := ⟨KeyType.KeyCtrlR, 0⟩

end AsusTUI

namespace AsusTUI

/-- C1: every recognized escape pattern decodes to exactly the corresponding
event and consumes exactly the documented bytes: `ESC [ A/B/C/D` give
Up/Down/Right/Left, `ESC [ H` and `ESC [ F` give Home and End (3 bytes
consumed each, the rest of the stream untouched), and `ESC [ 3 ~`,
`ESC [ 5 ~`, `ESC [ 6 ~` give Delete, PageUp, PageDown consuming 4 bytes
including the trailing `~`. -/
theorem readKey_escape_table (rest : List Nat) :
    readKey (27 :: 91 :: 65 :: rest) = (⟨KeyType.KeyUp, 0⟩, rest) ∧
    readKey (27 :: 91 :: 66 :: rest) = (⟨KeyType.KeyDown, 0⟩, rest) ∧
    readKey (27 :: 91 :: 67 :: rest) = (⟨KeyType.KeyRight, 0⟩, rest) ∧
    readKey (27 :: 91 :: 68 :: rest) = (⟨KeyType.KeyLeft, 0⟩, rest) ∧
    readKey (27 :: 91 :: 72 :: rest) = (⟨KeyType.KeyHome, 0⟩, rest) ∧
    readKey (27 :: 91 :: 70 :: rest) = (⟨KeyType.KeyEnd, 0⟩, rest) ∧
    readKey (27 :: 91 :: 51 :: 126 :: rest) = (⟨KeyType.KeyDelete, 0⟩, rest) ∧
    readKey (27 :: 91 :: 53 :: 126 :: rest) = (⟨KeyType.KeyPgUp, 0⟩, rest) ∧
    readKey (27 :: 91 :: 54 :: 126 :: rest) = (⟨KeyType.KeyPgDn, 0⟩, rest) := by
  refine ⟨rfl, rfl, rfl, rfl, rfl, rfl, rfl, rfl, rfl⟩

/-- C2 counterexample: the claim pairs byte 18 with the save chord and byte 19
with the refresh chord, but the decoder maps byte 18 to Ctrl-R (refresh) and
byte 19 to Ctrl-S (save) — the pairing is swapped. -/
theorem readKey_save_refresh_swapped :
    ¬ ((readKey [18]).1 = saveChord ∧ (readKey [19]).1 = refreshChord) := by
  decide

/-- C2 (amended): for input bytes 3, 17, 18, 19 respectively, the decoder
returns the interrupt (Ctrl-C), quit (Ctrl-Q), refresh (Ctrl-R) and save
(Ctrl-S) control-chord events, each decoded from that single byte with no
further reads (the rest of the stream is untouched). -/
theorem readKey_control_chords (rest : List Nat) :
    readKey (3 :: rest) = (⟨KeyType.KeyCtrlC, 0⟩, rest) ∧
    readKey (17 :: rest) = (⟨KeyType.KeyCtrlQ, 0⟩, rest) ∧
    readKey (18 :: rest) = (⟨KeyType.KeyCtrlR, 0⟩, rest) ∧
    readKey (19 :: rest) = (⟨KeyType.KeyCtrlS, 0⟩, rest) := by
  refine ⟨rfl, rfl, rfl, rfl⟩

/-- C4: an ESC followed by a second byte other than `[`, or by `[` and an
unrecognized third byte, decodes to the bare Escape event (and the decoder,
being a total function, neither errors nor fails to return); a lone ESC with
nothing after it also gives bare Escape. -/
theorem readKey_unrecognized_escape (b2 b3 : Nat) (rest : List Nat)
    (h2 : b2 ≠ 91)
    (h3 : b3 ∉ [65, 66, 67, 68, 72, 70, 51, 53, 54]) :
    readKey (27 :: b2 :: rest) = (⟨KeyType.KeyEscape, 0⟩, rest) ∧
    readKey (27 :: 91 :: b3 :: rest) = (⟨KeyType.KeyEscape, 0⟩, rest) ∧
    readKey [27] = (⟨KeyType.KeyEscape, 0⟩, []) := by
  refine ⟨?_, ?_, rfl⟩
  · simp only [readKey, readByte, if_neg h2]
  · simp only [List.mem_cons, List.mem_singleton, not_or] at h3
    obtain ⟨n65, n66, n67, n68, n72, n70, n51, n53, n54, -⟩ := h3
    simp [readKey, readByte, n65, n66, n67, n68, n72, n70, n51, n53, n54]

/-- C4 witness: the general theorem applied at the concrete unrecognized
bytes `x` (120) and `Z` (90). -/
theorem readKey_unrecognized_escape_witness :
    readKey [27, 120, 7] = (⟨KeyType.KeyEscape, 0⟩, [7]) ∧
    readKey [27, 91, 90, 7] = (⟨KeyType.KeyEscape, 0⟩, [7]) ∧
    readKey [27] = (⟨KeyType.KeyEscape, 0⟩, []) :=
  readKey_unrecognized_escape 120 90 [7] (by decide) (by decide)

/-- C5: when no byte arrives within the timeout or the read fails (both are a
`none` from `readByte`), the decoder returns the synthetic idle event — a
character event carrying code point 0 — without propagating any error, and
the event loop's tick test accepts exactly this event. -/
theorem readKey_idle_on_timeout :
    readKey [] = (idleEvent, []) ∧
    isIdleTick idleEvent = true ∧
    (∀ e : KeyEvent, isIdleTick e = true → e = idleEvent) := by
  refine ⟨rfl, rfl, ?_⟩
  intro e h
  simp only [isIdleTick, Bool.and_eq_true, decide_eq_true_eq] at h
  obtain ⟨ht, hc⟩ := h
  cases e
  simp_all [idleEvent]

/-- C5 witness: the idle branch and the tick test evaluated concretely, the
uniqueness direction applied at the event `⟨KeyChar, 0⟩` itself. -/
theorem readKey_idle_on_timeout_witness :
    readKey [] = (idleEvent, []) ∧ (⟨KeyType.KeyChar, 0⟩ : KeyEvent) = idleEvent :=
  ⟨readKey_idle_on_timeout.1, readKey_idle_on_timeout.2.2 ⟨KeyType.KeyChar, 0⟩ (by decide)⟩

/-- C10: after `ESC [` and one of `3`, `5`, `6`, the decoder discards the next
byte unconditionally — whatever it is, or even if none is available — and
returns Delete, PageUp or PageDown respectively. -/
theorem readKey_discards_fourth_byte (b4 : Nat) (rest : List Nat) :
    readKey (27 :: 91 :: 51 :: b4 :: rest) = (⟨KeyType.KeyDelete, 0⟩, rest) ∧
    readKey (27 :: 91 :: 53 :: b4 :: rest) = (⟨KeyType.KeyPgUp, 0⟩, rest) ∧
    readKey (27 :: 91 :: 54 :: b4 :: rest) = (⟨KeyType.KeyPgDn, 0⟩, rest) ∧
    readKey [27, 91, 51] = (⟨KeyType.KeyDelete, 0⟩, []) ∧
    readKey [27, 91, 53] = (⟨KeyType.KeyPgUp, 0⟩, []) ∧
    readKey [27, 91, 54] = (⟨KeyType.KeyPgDn, 0⟩, []) := by
  refine ⟨rfl, rfl, rfl, rfl, rfl, rfl⟩

theorem applyOps_append (buf : String) (ops : List DrawOp) :
    applyOps buf ops = buf ++ emitAll ops := by
  induction ops generalizing buf with
  | nil =>
    simp [applyOps, emitAll, String.ext_iff, String.data_append]
  | cons op ops ih =>
    simp only [applyOps, List.foldl_cons, emitAll, List.foldr_cons] at *
    rw [show applyOp buf op = buf ++ emit op from rfl, ih]
    simp [String.ext_iff, String.data_append]

/-- C3 counterexample: after a clear and a single `Write("x")`, `Flush` does
not transmit just `"x"` — it wraps the buffer in a hide-cursor/home prefix
and a show-cursor suffix of its own. -/
theorem flush_adds_wrapping :
    flushOutput (applyOps (clearBuf "") [DrawOp.write "x"]) ≠ "x" := by
  decide

/-- C3 (amended): after a `clear()`, the buffer holds exactly the
concatenation of the bytes the draw calls appended, in call order, and
`Flush` transmits that concatenation unbroken in a single transmission,
wrapped between a fixed hide-cursor-and-home prefix and a show-cursor suffix
that `Flush` itself adds. -/
theorem flush_transmits_buffer (ops : List DrawOp) :
    applyOps (clearBuf "") ops = emitAll ops ∧
    flushOutput (applyOps (clearBuf "") ops) =
      "\x1b[?25l\x1b[H" ++ emitAll ops ++ "\x1b[?25h" := by
  have h := applyOps_append (clearBuf "") ops
  have hempty : clearBuf "" ++ emitAll ops = emitAll ops := by
    simp [clearBuf, String.ext_iff, String.data_append]
  rw [hempty] at h
  exact ⟨h, by rw [h]; rfl⟩

/-- C6: whatever size the ioctl reports (zeros on failure included), the
result is at least 40 wide and at least 10 tall; and when the report is
degenerate — below the 40×10 floor — the result is exactly 80×24. -/
theorem updateSize_floor (col row : Nat) :
    (40 ≤ (updateSize col row).1 ∧ 10 ≤ (updateSize col row).2) ∧
    (col < 40 ∧ row < 10 → updateSize col row = (80, 24)) := by
  constructor
  · constructor
    · by_cases h : col < 40
      · simp [updateSize, h]
      · simp only [updateSize, if_neg h]
        omega
    · by_cases h : row < 10
      · simp [updateSize, h]
      · simp only [updateSize, if_neg h]
        omega
  · rintro ⟨hc, hr⟩
    simp [updateSize, hc, hr]

/-- C6 witness: a failed query reports zeros and yields exactly 80×24. -/
theorem updateSize_floor_witness :
    updateSize 0 0 = (80, 24) ∧ 40 ≤ (updateSize 0 0).1 ∧ 10 ≤ (updateSize 0 0).2 :=
  ⟨(updateSize_floor 0 0).2 ⟨by decide, by decide⟩, (updateSize_floor 0 0).1⟩

/-- C7 counterexample: the claim predicts every truncation ends in the
ellipsis marker, but at target width 3 the code returns a plain 3-rune
prefix: `pad "abcd" 3 = "abc"`, not `"ab…"`. -/
theorem pad_no_ellipsis_at_small_width :
    pad "abcd" 3 = "abc" ∧ pad "abcd" 3 ≠ "ab…" := by
  constructor <;> decide

/-- C7 (amended): `pad` always returns a string of exactly the target rune
count; a string of at least the target rune count is truncated — when the
target exceeds 3, to a (target−1)-rune prefix followed by a single ellipsis
marker, and when the target is at most 3, to a plain target-rune prefix with
no ellipsis; a shorter string is right-padded with spaces to exactly the
target. -/
theorem pad_data (s : String) (w : Nat) :
    (pad s w).data =
      if s.toList.length ≥ w then
        if w > 3 then s.toList.take (w - 1) ++ ['…'] else s.toList.take w
      else s.toList ++ List.replicate (w - s.toList.length) ' ' := by
  simp only [pad]
  split_ifs
  · rfl
  · rfl
  · rw [String.data_append]
    rfl

theorem pad_exact_width (s : String) (w : Nat) :
    (pad s w).toList.length = w ∧
    (w ≤ s.toList.length → 3 < w →
      pad s w = String.mk (s.toList.take (w - 1)) ++ "…") ∧
    (w ≤ s.toList.length → w ≤ 3 →
      pad s w = String.mk (s.toList.take w)) ∧
    (s.toList.length < w →
      pad s w = s ++ String.mk (List.replicate (w - s.toList.length) ' ')) := by
  refine ⟨?_, ?_, ?_, ?_⟩
  · show (pad s w).data.length = w
    rw [pad_data]
    split_ifs with h1 h2
    · simp only [List.length_append, List.length_take, List.length_cons,
        List.length_nil]
      omega
    · simp only [List.length_take]
      omega
    · simp only [List.length_append, List.length_replicate]
      omega
  · intro hlen hw
    apply String.ext
    rw [pad_data, if_pos hlen, if_pos hw]
    rfl
  · intro hlen hw
    apply String.ext
    rw [pad_data, if_pos hlen, if_neg (by omega)]
  · intro hlen
    apply String.ext
    rw [pad_data, if_neg (by omega), String.data_append]
    rfl

/-- C7 witness: a 12-rune string truncated to width 6 is a 5-rune prefix plus
the ellipsis, and a 2-rune string padded to width 4 gains two spaces; both
have exactly the target rune count. -/
theorem pad_exact_width_witness :
    pad "abcdefghijkl" 6 = String.mk (("abcdefghijkl" : String).toList.take 5) ++ "…" ∧
    pad "ab" 4 = "ab" ++ String.mk (List.replicate 2 ' ') ∧
    (pad "abcdefghijkl" 6).toList.length = 6 :=
  ⟨(pad_exact_width "abcdefghijkl" 6).2.1 (by decide) (by decide),
   (pad_exact_width "ab" 4).2.2.2 (by decide),
   (pad_exact_width "abcdefghijkl" 6).1⟩

/-- C8: after `EnterRaw` succeeds and `ExitRaw` is then called, the settings
active on the terminal are bit-for-bit the snapshot saved before `EnterRaw`
modified them; `ExitRaw` when not raw is a no-op that changes nothing, and a
second `ExitRaw` after a first changes nothing. -/
theorem enterRaw_exitRaw_roundtrip (s : TermState) :
    (exitRaw (enterRaw s)).tty = s.tty ∧
    (s.inRaw = false → exitRaw s = s) ∧
    exitRaw (exitRaw (enterRaw s)) = exitRaw (enterRaw s) := by
  refine ⟨?_, ?_, ?_⟩
  · simp [exitRaw, enterRaw]
  · intro h
    simp [exitRaw, h]
  · simp [exitRaw, enterRaw]

/-- C8 witness: the round trip and the not-raw no-op at a concrete state. -/
theorem enterRaw_exitRaw_roundtrip_witness :
    (exitRaw (enterRaw ⟨⟨1, 2, 3, 4, [5, 6]⟩, ⟨0, 0, 0, 0, []⟩, false, ""⟩)).tty =
      ⟨1, 2, 3, 4, [5, 6]⟩ ∧
    exitRaw ⟨⟨1, 2, 3, 4, [5, 6]⟩, ⟨0, 0, 0, 0, []⟩, false, ""⟩ =
      ⟨⟨1, 2, 3, 4, [5, 6]⟩, ⟨0, 0, 0, 0, []⟩, false, ""⟩ :=
  ⟨(enterRaw_exitRaw_roundtrip ⟨⟨1, 2, 3, 4, [5, 6]⟩, ⟨0, 0, 0, 0, []⟩, false, ""⟩).1,
   (enterRaw_exitRaw_roundtrip ⟨⟨1, 2, 3, 4, [5, 6]⟩, ⟨0, 0, 0, 0, []⟩, false, ""⟩).2.1 rfl⟩

/-- C9: the claimed mutual exclusion fails on the code. `ExitRaw` writes its
restoration escapes without taking `t.mu`, so under the schedule in which the
signal handler runs between `Flush`'s first and second writes, the
restoration sequence lands inside the frame — the trace below shows thread
B's write strictly between thread A's writes — and both threads still run to
completion (nothing blocks). -/
theorem exitRaw_interleaves_flush :
    (run (initConc "FRAME") [false, false, true, false, false, false]).trace =
      [(false, "\x1b[?25l\x1b[H"), (true, "\x1b[?25h\x1b[?1049l"),
       (false, "FRAME"), (false, "\x1b[?25h")] ∧
    (run (initConc "FRAME") [false, false, true, false, false, false]).progA = [] ∧
    (run (initConc "FRAME") [false, false, true, false, false, false]).progB = [] := by
  refine ⟨rfl, rfl, rfl⟩

end AsusTUI
